import Mathlib

/-!
Shallow embedding of the overlay-node engine in `src/p2p.go` (package main).

Strings that only serve as identity keys (`CleanAddr`, resolved UDP
addresses via `addr.String()`) are kept as Lean `String`s.  Byte slices
(`net.IP`, `net.HardwareAddr`) are `List Nat`; Go's `nil` slice is the
empty list (its `String()` form is `""`, matching Go).  External
collaborators (the UDP codec, `net.ResolveUDPAddr`, `crypto/rand`) are
abstracted exactly at their call sites: the codec by an already-decoded
`P2PMessage`, resolution by an oracle `resolve : String → Option UDPAddr`,
and randomness by passing the six random bytes as arguments.
-/

namespace P2P

/-- Resolved UDP address, identified by its `String()` form (the engine
only ever compares and stores `addr.String()`). -/
abbrev UDPAddr := String

/-- `net.IP` byte slice; `[]` models Go's `nil`. -/
abbrev IPAddr := List Nat

/-- `net.HardwareAddr` byte slice; `[]` models Go's `nil`. -/
abbrev HWAddr := List Nat

/-- Lowercase hexadecimal digit for `n < 16` (as used by `%02x` and by
`net.HardwareAddr.String()`). -/
def hexDigit (n : Nat) : Char :=
  if n < 10 then Char.ofNat (48 + n) else Char.ofNat (87 + n)

/-- Two-digit lowercase hex rendering of a byte (`%02x` for values < 256). -/
def byteHex (b : Nat) : List Char :=
  [hexDigit (b / 16), hexDigit (b % 16)]

/-- Is `c` an ASCII hex digit? (mirrors the digits accepted by Go's
`net.ParseMAC` within one octet group). -/
def isHexChar (c : Char) : Bool :=
  c.isDigit || (('a' ≤ c) && (c ≤ 'f')) || (('A' ≤ c) && (c ≤ 'F'))

/-- Numeric value of a hex digit character. -/
def hexVal (c : Char) : Nat :=
  if c.isDigit then c.toNat - 48
  else if ('a' ≤ c) && (c ≤ 'f') then c.toNat - 87
  else if ('A' ≤ c) && (c ≤ 'F') then c.toNat - 55
  else 0

/-- `strings.Split` on a one-character separator, at the character level.
`splitChar sep s` never returns `[]` and concatenating its groups with
`sep` gives back `s`, exactly like Go's `strings.Split`. -/
def splitChar (sep : Char) : List Char → List (List Char)
  | [] => [[]]
  | c :: rest =>
    if c = sep then [] :: splitChar sep rest
    else
      match splitChar sep rest with
      | g :: gs => (c :: g) :: gs
      | [] => [[c]]

/-- `net.HardwareAddr.String()`: colon-separated lowercase hex octets,
`""` for the nil slice. -/
def hwString (hw : HWAddr) : String :=
  String.intercalate ":" (hw.map (fun b => String.mk (byteHex b)))

/-- Decimal value of a digit string (callers guard that all characters
are digits). -/
def decVal (s : List Char) : Nat :=
  s.foldl (fun n c => n * 10 + (c.toNat - 48)) 0

/-- One dotted-quad field: non-empty, all decimal digits, value ≤ 255
(mirrors Go's `dtoi` as used by `net.ParseIP` on IPv4 literals). -/
def parseIPv4Field (s : List Char) : Option Nat :=
  if s.isEmpty then none
  else if s.all (·.isDigit) then
    if decVal s ≤ 255 then some (decVal s) else none
  else none

/-- `net.ParseIP` restricted to dotted IPv4 (the only form the engine
produces and the spec admits); failure is Go's `nil`, i.e. `[]`. -/
def parseIP (s : String) : IPAddr :=
  match (splitChar '.' s.data).map parseIPv4Field with
  | [some a, some b, some c, some d] => [a, b, c, d]
  | _ => []

/-- One colon-group of a MAC: exactly two hex digits. -/
def parseHexByte (s : List Char) : Option Nat :=
  match s with
  | [c1, c2] =>
    if isHexChar c1 && isHexChar c2 then some (hexVal c1 * 16 + hexVal c2)
    else none
  | _ => none

/-- `net.ParseMAC` restricted to the six-octet colon form (the only form
the engine produces and the spec admits); failure is Go's `nil`, i.e. `[]`. -/
def parseMAC (s : String) : HWAddr :=
  match (splitChar ':' s.data).map parseHexByte with
  | [some a, some b, some c, some d, some e, some f] => [a, b, c, d, e, f]
  | _ => []

/-- The `NetworkPeer` struct of `src/p2p.go` (line 59).  `PeerAddr` and
`Forwarder` are `*net.UDPAddr` pointers, hence `Option`. -/
structure NetworkPeer where
  Unknown : Bool
  Handshaked : Bool
  CleanAddr : String
  ProxyID : Int
  Forwarder : Option UDPAddr
  PeerAddr : Option UDPAddr
  PeerLocalIP : IPAddr
  PeerHW : HWAddr
deriving DecidableEq, Repr

/-- Go's zero value for `NetworkPeer` (`var newPeer NetworkPeer`). -/
def zeroPeer : NetworkPeer :=
  { Unknown := false, Handshaked := false, CleanAddr := "", ProxyID := 0,
    Forwarder := none, PeerAddr := none, PeerLocalIP := [], PeerHW := [] }

/-- The fields of `PTPCloud` the peer-table engine reads and writes
(`IP`, `Mac`, `NetworkPeers`); device/socket handles are owned by the
external bindings. -/
structure PTPCloud where
  IP : String
  Mac : String
  NetworkPeers : List NetworkPeer
deriving DecidableEq, Repr

/-- Overlay message types dispatched by the handler (`commons.MSG_TYPE`);
`MT_OTHER` stands for every type other than the two the core defines. -/
inductive MsgType where
  | MT_INTRO
  | MT_NENC
  | MT_OTHER
deriving DecidableEq, Repr

/-- Decoded overlay message: `msg.Header.Type` and `msg.Data` (payload
bytes, carried here as a string as the intro path does). -/
structure P2PMessage where
  HeaderType : MsgType
  Data : String
deriving DecidableEq, Repr

/-- `PrepareIntroductionMessage` (line 342): an `MT_INTRO` message whose
payload is `ip + "," + mac`. -/
def PrepareIntroductionMessage (ip mac : String) : P2PMessage :=
  { HeaderType := MsgType.MT_INTRO, Data := ip ++ "," ++ mac }

/-- `PurgePeers` (line 350).  First pass records, in ascending order, the
indices of peers whose `CleanAddr` is not in `catched`.  `sort.Reverse`
then sorts `remove` descending (= `remove.reverse`, since it was built
ascending).  The deletion loop is `for i := range remove`, so `i` runs
over the POSITIONS `0 .. remove.length - 1` of `remove`, not its values,
and each step deletes position `i` of the current slice
(`append(peers[:i], peers[i+1:]...)`, embedded as `take i ++ drop (i+1)`,
exact whenever Go does not panic on the slice bounds). -/
def PurgePeers (ptp : PTPCloud) (catched : List String) : PTPCloud :=
  let remove := (List.range ptp.NetworkPeers.length).filter (fun i =>
    match ptp.NetworkPeers.get? i with
    | some peer => !(catched.any (fun addr => addr == peer.CleanAddr))
    | none => false)
  let sorted := remove.reverse
  let peers := (List.range sorted.length).foldl
    (fun ps i => ps.take i ++ ps.drop (i + 1)) ptp.NetworkPeers
  { ptp with NetworkPeers := peers }

/-- The fresh peer `SyncPeers` inserts: zero value with `CleanAddr` set
and `Unknown = true`. -/
def newDiscoveredPeer (addr : String) : NetworkPeer :=
  { zeroPeer with CleanAddr := addr, Unknown := true }

/-- Inner loop of `SyncPeers` (line 372): walk `catched`, appending a
fresh `Unknown` peer for every endpoint not present in the (growing)
table, counting insertions. -/
def syncPeersList (peers : List NetworkPeer) : List String → List NetworkPeer × Nat
  | [] => (peers, 0)
  | addr :: rest =>
    if peers.any (fun p => p.CleanAddr == addr) then
      syncPeersList peers rest
    else
      let (ps, c) := syncPeersList (peers ++ [newDiscoveredPeer addr]) rest
      (ps, c + 1)

/-- `SyncPeers` (line 372): returns the updated cloud and the number of
peers added. -/
def SyncPeers (ptp : PTPCloud) (catched : List String) : PTPCloud × Nat :=
  let (peers, c) := syncPeersList ptp.NetworkPeers catched
  ({ ptp with NetworkPeers := peers }, c)

/-- `AddPeer` (line 427): every peer whose `CleanAddr` equals
`addr.String()` is overwritten with the resolved address, overlay IP and
MAC, `Unknown = false`, `Handshaked = true`; if none matched, a new such
peer is appended.  No `overlay_mac` uniqueness check appears anywhere. -/
def AddPeer (ptp : PTPCloud) (addr : UDPAddr) (ip : IPAddr) (mac : HWAddr) : PTPCloud :=
  let found := ptp.NetworkPeers.any (fun p => p.CleanAddr == addr)
  let peers := ptp.NetworkPeers.map (fun p =>
    if p.CleanAddr == addr then
      { p with PeerAddr := some addr, PeerLocalIP := ip, PeerHW := mac,
               Unknown := false, Handshaked := true }
    else p)
  let newPeer : NetworkPeer :=
    { zeroPeer with
      CleanAddr := addr, PeerAddr := some addr,
      PeerLocalIP := ip, PeerHW := mac,
      Unknown := false, Handshaked := true }
  if found then { ptp with NetworkPeers := peers }
  else { ptp with NetworkPeers := peers ++ [newPeer] }

/-- `IsPeerUnknown` (line 474): return the first matching peer's
`Unknown` flag, `true` when no peer matches. -/
def IsPeerUnknown (ptp : PTPCloud) (addr : UDPAddr) : Bool :=
  match ptp.NetworkPeers.find? (fun p => p.CleanAddr == addr) with
  | some peer => peer.Unknown
  | none => true

/-- `ParseIntroString` (line 455): split on `","`; exactly two parts, a
parsable IP and a parsable MAC, else `(nil, nil)` = `([], [])`. -/
def ParseIntroString (intro : String) : IPAddr × HWAddr :=
  match splitChar ',' intro.data with
  | [p0, p1] =>
    let ip := parseIP (String.mk p0)
    if ip = [] then ([], [])
    else
      let mac := parseMAC (String.mk p1)
      if mac = [] then ([], []) else (ip, mac)
  | _ => ([], [])

/-- Loop body of `IntroducePeers` (line 321): a non-`Unknown` peer is
skipped (`continue`); a failed resolution is logged and skipped,
leaving the peer untouched; otherwise `PeerAddr` is stored at the
peer's slot and one introduction message is sent (send errors are only
logged). -/
def introStep (resolve : String → Option UDPAddr) (ip mac : String)
    (acc : List NetworkPeer × List (P2PMessage × UDPAddr))
    (peer : NetworkPeer) : List NetworkPeer × List (P2PMessage × UDPAddr) :=
  if !peer.Unknown then (acc.1 ++ [peer], acc.2)
  else
    match resolve peer.CleanAddr with
    | none => (acc.1 ++ [peer], acc.2)
    | some addr =>
      (acc.1 ++ [{ peer with PeerAddr := some addr }],
        acc.2 ++ [(PrepareIntroductionMessage ip mac, addr)])

/-- `IntroducePeers` (line 321): walk the peer sequence with `introStep`
(`net.ResolveUDPAddr` abstracted by `resolve`). -/
def IntroducePeers (resolve : String → Option UDPAddr) (ptp : PTPCloud) :
    PTPCloud × List (P2PMessage × UDPAddr) :=
  let (peers, sends) :=
    ptp.NetworkPeers.foldl (introStep resolve ptp.IP ptp.Mac) ([], [])
  ({ ptp with NetworkPeers := peers }, sends)

/-- Observable effects of one `HandleP2PMessage` invocation: the updated
cloud, UDP sends, and TAP writes. -/
structure HandleResult where
  ptp : PTPCloud
  sends : List (P2PMessage × UDPAddr)
  tapWrites : List String
deriving DecidableEq, Repr

/-- `HandleP2PMessage` (line 484).  A non-nil `err` and a
`P2PMessageFromBytes` failure both log and return with no effect; both
are modelled by `msg? = none`.  `MT_INTRO`: if the source is not unknown,
return; otherwise parse the payload, call `AddPeer` with whatever
`ParseIntroString` returned (the nil results of a parse failure
included), and reply with one introduction message.  `MT_NENC`: write the
payload to the TAP.  Unknown types log and return. -/
def HandleP2PMessage (ptp : PTPCloud) (src_addr : UDPAddr)
    (msg? : Option P2PMessage) : HandleResult :=
  match msg? with
  | none => { ptp := ptp, sends := [], tapWrites := [] }
  | some msg =>
    match msg.HeaderType with
    | MsgType.MT_INTRO =>
      if !(IsPeerUnknown ptp src_addr) then
        { ptp := ptp, sends := [], tapWrites := [] }
      else
        let parsed := ParseIntroString msg.Data
        let ptp2 := AddPeer ptp src_addr parsed.1 parsed.2
        let reply := PrepareIntroductionMessage ptp.IP ptp.Mac
        { ptp := ptp2, sends := [(reply, src_addr)], tapWrites := [] }
    | MsgType.MT_NENC =>
      { ptp := ptp, sends := [], tapWrites := [msg.Data] }
    | MsgType.MT_OTHER =>
      { ptp := ptp, sends := [], tapWrites := [] }

/-- `SendTo` (line 523): send `msg` to the first peer whose
`PeerHW.String()` equals `dst.String()`; the `Handshaked` flag is never
consulted.  The returned list is the UDP traffic generated. -/
def SendTo (ptp : PTPCloud) (dst : HWAddr) (msg : P2PMessage) :
    List (P2PMessage × Option UDPAddr) :=
  match ptp.NetworkPeers.find? (fun p => hwString p.PeerHW == hwString dst) with
  | some peer => [(msg, peer.PeerAddr)]
  | none => []

/-- The random buffer of `GenerateMAC` (line 408) after
`buf[0] |= 2`: only byte 0 is modified. -/
def generateMACBuf (b0 b1 b2 b3 b4 b5 : Nat) : List Nat :=
  [b0 ||| 2, b1, b2, b3, b4, b5]

/-- The formatted MAC of `GenerateMAC`:
`fmt.Sprintf("06:%02x:%02x:%02x:%02x:%02x", buf[1], ..., buf[5])` —
a literal `06` first octet, then bytes 1–5; byte 0 is not printed. -/
def macString (b1 b2 b3 b4 b5 : Nat) : List Char :=
  ['0', '6', ':'] ++ byteHex b1 ++ [':'] ++ byteHex b2 ++ [':'] ++
    byteHex b3 ++ [':'] ++ byteHex b4 ++ [':'] ++ byteHex b5

/-- `GenerateMAC` (line 408), with the six bytes `crypto/rand` filled in
passed as arguments: returns the formatted string and its
`net.ParseMAC` result. -/
def GenerateMAC (b0 b1 b2 b3 b4 b5 : Nat) : String × HWAddr :=
  let _buf := generateMACBuf b0 b1 b2 b3 b4 b5
  let mac := String.mk (macString b1 b2 b3 b4 b5)
  let hw := parseMAC mac
  (mac, hw)

/-- Outcome of `CreateDevice` (line 71) for the process: `log.Fatalf`
exits the process (`fatalExit`); the config branches `log.Printf` and
`return err` (`returnedErr`); otherwise the function returns `nil`
(`okDone`). -/
inductive Outcome where
  | fatalExit
  | returnedErr
  | okDone
deriving DecidableEq, Repr

/-- Success/failure of each external step `CreateDevice` performs, in
source order: `ioutil.ReadFile("config.yaml")`, `yaml.Unmarshal`,
`tuntap.Open`, and the three `exec.Command` runs. -/
structure DeviceEnv where
  configRead : Bool
  configParse : Bool
  tapOpen : Bool
  linkUp : Bool
  addrAdd : Bool
  macSet : Bool
deriving DecidableEq, Repr

/-- `CreateDevice` (line 71) as its process-outcome shadow, branch for
branch: config read failure → `log.Printf` + `return err`; config parse
failure → `log.Printf` + `return err`; TAP open failure → `log.Fatalf`;
`link up`, `addr add`, `link set address` failures → `log.Fatalf`. -/
def CreateDevice (env : DeviceEnv) : Outcome :=
  if !env.configRead then Outcome.returnedErr
  else if !env.configParse then Outcome.returnedErr
  else if !env.tapOpen then Outcome.fatalExit
  else if !env.linkUp then Outcome.fatalExit
  else if !env.addrAdd then Outcome.fatalExit
  else if !env.macSet then Outcome.fatalExit
  else Outcome.okDone

/-- Whether startup aborts: `main` (line 281) discards `CreateDevice`'s
returned error, so the process stops during device setup exactly when
some branch called `log.Fatalf`. -/
def startupAborts (env : DeviceEnv) : Bool :=
  CreateDevice env == Outcome.fatalExit

/-- One iteration of the membership loop body in `main` (lines 305–315):
purge, sync, and introduce only when `newPeersNum > 0`.  Returns the
updated cloud and the introductions sent this cycle. -/
def MembershipCycle (resolve : String → Option UDPAddr) (ptp : PTPCloud)
    (lastCatch : List String) : PTPCloud × List (P2PMessage × UDPAddr) :=
  let p1 := PurgePeers ptp lastCatch
  let (p2, n) := SyncPeers p1 lastCatch
  if n > 0 then IntroducePeers resolve p2 else (p2, [])

/-- The two-flag state invariant: every peer's `Unknown` flag is the
negation of its `Handshaked` flag. -/
def FlagInv (peers : List NetworkPeer) : Prop :=
  ∀ p ∈ peers, p.Unknown = !p.Handshaked

/-! ### Helper lemmas -/

theorem find?_addr_eq_none {peers : List NetworkPeer} {a : String}
    (h : ∀ p ∈ peers, p.CleanAddr ≠ a) :
    peers.find? (fun p => p.CleanAddr == a) = none := by
  rw [List.find?_eq_none]
  intro p hp
  simpa using h p hp

theorem any_addr_eq_false {peers : List NetworkPeer} {a : String}
    (h : ∀ p ∈ peers, p.CleanAddr ≠ a) :
    (peers.any (fun p => p.CleanAddr == a)) = false := by
  simp only [List.any_eq_false, beq_iff_eq]
  exact h

theorem map_if_no_match {α : Type} (l : List α) (f : α → α) (pred : α → Bool)
    (h : ∀ x ∈ l, pred x = false) :
    l.map (fun x => if pred x then f x else x) = l := by
  induction l with
  | nil => rfl
  | cons x t ih =>
    rw [List.map_cons, if_neg (by simp [h x (List.mem_cons_self x t)]),
      ih (fun y hy => h y (List.mem_cons_of_mem x hy))]

/-! ### C1 -/

/-- C1: the claim asserts that `PurgePeers` retains exactly the peers
whose endpoints appear in the snapshot.  Evaluating the embedded code on
the failing input — table `["a:1", "b:1"]`, snapshot `["a:1"]` — shows
the opposite: the deletion loop (`for i := range remove`, which ranges
over positions of `remove`, not its values) deletes the retained peer
`"a:1"` and keeps the obsolete peer `"b:1"`. -/
theorem purgePeers_wrong_deletion_C1 :
    (PurgePeers
      { IP := "10.0.0.1", Mac := "06:aa:aa:aa:aa:aa",
        NetworkPeers := [{ zeroPeer with CleanAddr := "a:1", Unknown := true },
                         { zeroPeer with CleanAddr := "b:1", Unknown := true }] }
      ["a:1"]).NetworkPeers.map NetworkPeer.CleanAddr = ["b:1"] := by
  decide

/-! ### C2 -/

/-- C2: the claim asserts that an `MT_INTRO` datagram from an unknown
endpoint whose payload fails to parse is discarded: table unchanged, no
reply.  Evaluating the embedded handler on the failing input — payload
`"garbage"` (no comma, so `ParseIntroString` fails and returns
`(nil, nil)`) from the unknown endpoint `"9.9.9.9:42"` — shows the code
instead calls `AddPeer` with the nil results, creating a `Handshaked`
peer with empty IP/MAC, and still sends the introduction reply. -/
theorem handleIntro_malformed_C2 :
    HandleP2PMessage
      { IP := "10.0.0.1", Mac := "06:aa:aa:aa:aa:aa", NetworkPeers := [] }
      "9.9.9.9:42"
      (some { HeaderType := MsgType.MT_INTRO, Data := "garbage" }) =
    { ptp := { IP := "10.0.0.1", Mac := "06:aa:aa:aa:aa:aa",
               NetworkPeers := [{ zeroPeer with
                 CleanAddr := "9.9.9.9:42", PeerAddr := some "9.9.9.9:42",
                 Unknown := false, Handshaked := true }] },
      sends := [(PrepareIntroductionMessage "10.0.0.1" "06:aa:aa:aa:aa:aa",
                 "9.9.9.9:42")],
      tapWrites := [] } := by
  decide

/-! ### C5 -/

/-- C5 counterexample: the claim asserts that a `config.yaml` read
failure aborts the process.  In the embedded `CreateDevice` a config
read failure only logs and returns an error (which `main` discards), so
startup does not abort. -/
theorem createDevice_config_not_fatal_cex_C5 :
    startupAborts
      { configRead := false, configParse := true, tapOpen := true,
        linkUp := true, addrAdd := true, macSet := true } = false ∧
    CreateDevice
      { configRead := false, configParse := true, tapOpen := true,
        linkUp := true, addrAdd := true, macSet := true } =
      Outcome.returnedErr := by
  decide

/-- C5 (amended): `CreateDevice` returns an error (without aborting)
exactly when reading or parsing `config.yaml` fails; it aborts the
process (`log.Fatalf`) exactly when the config steps succeed and TAP
open, `link up`, address add, or MAC set fails; and startup aborts
exactly in the `log.Fatalf` cases, since `main` discards the returned
error. -/
theorem createDevice_outcomes_C5 (env : DeviceEnv) :
    (CreateDevice env = Outcome.returnedErr ↔
      (env.configRead = false ∨ (env.configRead = true ∧ env.configParse = false))) ∧
    (CreateDevice env = Outcome.fatalExit ↔
      (env.configRead = true ∧ env.configParse = true ∧
        (env.tapOpen = false ∨ env.linkUp = false ∨ env.addrAdd = false ∨
          env.macSet = false))) ∧
    (startupAborts env = true ↔ CreateDevice env = Outcome.fatalExit) := by
  rcases env with ⟨a, b, c, d, e, f⟩
  cases a <;> cases b <;> cases c <;> cases d <;> cases e <;> cases f <;> decide

/-! ### C6 -/

/-- C6 counterexample: the claim asserts that a frame whose destination
MAC matches no handshaked peer generates no UDP traffic.  On a table
whose only peer has `PeerHW = 06:01:02:03:04:05` but is NOT handshaked
(`Unknown = true`, `Handshaked = false`), `SendTo` for that MAC still
sends one message: the code never consults the `Handshaked` flag. -/
theorem sendTo_unhandshaked_cex_C6 :
    SendTo
      { IP := "10.0.0.1", Mac := "06:aa:aa:aa:aa:aa",
        NetworkPeers := [{ zeroPeer with
          CleanAddr := "c:1", Unknown := true, PeerHW := [6, 1, 2, 3, 4, 5],
          PeerAddr := some "c:1" }] }
      [6, 1, 2, 3, 4, 5]
      { HeaderType := MsgType.MT_NENC, Data := "frame" } =
    [({ HeaderType := MsgType.MT_NENC, Data := "frame" }, some "c:1")] := by
  decide

/-- C6 (amended): `SendTo` sends exactly one copy of the given message
to the `PeerAddr` of the first peer whose `PeerHW` renders to the same
string as the destination MAC, without consulting the `Handshaked`
flag; if no peer's `PeerHW` matches, no UDP traffic is generated. -/
theorem sendTo_first_match_C6 (ptp : PTPCloud) (dst : HWAddr) (msg : P2PMessage) :
    ((∀ p ∈ ptp.NetworkPeers, hwString p.PeerHW ≠ hwString dst) →
      SendTo ptp dst msg = []) ∧
    ((∃ p ∈ ptp.NetworkPeers, hwString p.PeerHW = hwString dst) →
      (SendTo ptp dst msg).length = 1 ∧
      ∀ x ∈ SendTo ptp dst msg,
        ∃ q ∈ ptp.NetworkPeers, hwString q.PeerHW = hwString dst ∧
          x = (msg, q.PeerAddr)) := by
  unfold SendTo
  cases hf : ptp.NetworkPeers.find? (fun p => hwString p.PeerHW == hwString dst) with
  | none =>
    refine ⟨fun _ => rfl, fun hex => absurd hex ?_⟩
    rw [List.find?_eq_none] at hf
    rintro ⟨p, hp, hpeq⟩
    exact (hf p hp) (by simpa using hpeq)
  | some q =>
    have hqmem : q ∈ ptp.NetworkPeers := List.mem_of_find?_eq_some hf
    have hqeq : hwString q.PeerHW = hwString dst := by
      have := List.find?_some hf
      simpa using this
    refine ⟨fun hall => absurd hqeq (hall q hqmem), fun _ => ⟨rfl, ?_⟩⟩
    intro x hx
    rcases List.mem_singleton.mp hx with rfl
    exact ⟨q, hqmem, hqeq, rfl⟩

/-- C6 witness: the amended theorem applied to a concrete empty table
(no match, no traffic) and to a concrete table with a matching
handshaked peer (exactly one send). -/
theorem sendTo_first_match_C6_witness :
    SendTo { IP := "i", Mac := "m", NetworkPeers := [] } [6, 1, 2, 3, 4, 5]
      { HeaderType := MsgType.MT_NENC, Data := "f" } = [] ∧
    (SendTo
      { IP := "i", Mac := "m",
        NetworkPeers := [{ zeroPeer with
          CleanAddr := "b:1", Unknown := false, Handshaked := true,
          PeerHW := [6, 1, 2, 3, 4, 5], PeerAddr := some "b:1" }] }
      [6, 1, 2, 3, 4, 5]
      { HeaderType := MsgType.MT_NENC, Data := "f" }).length = 1 := by
  constructor
  · exact (sendTo_first_match_C6
      { IP := "i", Mac := "m", NetworkPeers := [] } [6, 1, 2, 3, 4, 5]
      { HeaderType := MsgType.MT_NENC, Data := "f" }).1 (by decide)
  · exact ((sendTo_first_match_C6
      { IP := "i", Mac := "m",
        NetworkPeers := [{ zeroPeer with
          CleanAddr := "b:1", Unknown := false, Handshaked := true,
          PeerHW := [6, 1, 2, 3, 4, 5], PeerAddr := some "b:1" }] }
      [6, 1, 2, 3, 4, 5]
      { HeaderType := MsgType.MT_NENC, Data := "f" }).2 (by decide)).1

/-! ### C3 -/

/-- C3 counterexample: the claim asserts that `AddPeer` leaves the table
unchanged when the given MAC is already on a different peer.  Starting
from a table with one handshaked peer `"a:1"` owning MAC
`06:01:02:03:04:05` and calling `AddPeer` for the different endpoint
`"b:1"` with that same MAC, the table changes: it now holds two
handshaked peers with equal `PeerHW`. -/
theorem addPeer_duplicate_mac_cex_C3 :
    (AddPeer
      { IP := "10.0.0.1", Mac := "06:aa:aa:aa:aa:aa",
        NetworkPeers := [{ zeroPeer with
          CleanAddr := "a:1", Unknown := false, Handshaked := true,
          PeerHW := [6, 1, 2, 3, 4, 5], PeerAddr := some "a:1" }] }
      "b:1" [10, 0, 0, 2] [6, 1, 2, 3, 4, 5]).NetworkPeers =
    [{ zeroPeer with
        CleanAddr := "a:1", Unknown := false, Handshaked := true,
        PeerHW := [6, 1, 2, 3, 4, 5], PeerAddr := some "a:1" },
     { zeroPeer with
        CleanAddr := "b:1", Unknown := false, Handshaked := true,
        PeerHW := [6, 1, 2, 3, 4, 5], PeerAddr := some "b:1",
        PeerLocalIP := [10, 0, 0, 2] }] := by
  decide

/-- C3 (amended): `AddPeer` performs no `overlay_mac` uniqueness check.
Whenever no peer carries the given endpoint it appends a new handshaked
peer with the given MAC — even when that MAC is already recorded on a
different handshaked peer, in which case the resulting table holds two
distinct handshaked peers with the same `PeerHW`; uniqueness of
`overlay_mac` among handshaked peers is not an invariant of the code. -/
theorem addPeer_no_mac_check_C3 (ptp : PTPCloud) (addr : UDPAddr)
    (ip : IPAddr) (mac : HWAddr)
    (habs : ∀ p ∈ ptp.NetworkPeers, p.CleanAddr ≠ addr) :
    AddPeer ptp addr ip mac =
      { ptp with NetworkPeers := ptp.NetworkPeers ++
          [{ zeroPeer with
             CleanAddr := addr, PeerAddr := some addr, PeerLocalIP := ip,
             PeerHW := mac, Unknown := false, Handshaked := true }] } ∧
    ((∃ q ∈ ptp.NetworkPeers, q.Handshaked = true ∧ q.PeerHW = mac) →
      ∃ q₁ ∈ (AddPeer ptp addr ip mac).NetworkPeers,
        ∃ q₂ ∈ (AddPeer ptp addr ip mac).NetworkPeers,
          q₁ ≠ q₂ ∧ q₁.Handshaked = true ∧ q₂.Handshaked = true ∧
          q₁.PeerHW = q₂.PeerHW) := by
  have hany := any_addr_eq_false habs
  have hmap : ptp.NetworkPeers.map (fun p =>
      if p.CleanAddr == addr then
        { p with PeerAddr := some addr, PeerLocalIP := ip, PeerHW := mac,
                 Unknown := false, Handshaked := true }
      else p) = ptp.NetworkPeers := by
    apply map_if_no_match
    intro p hp
    simp [habs p hp]
  have heq : AddPeer ptp addr ip mac =
      { ptp with NetworkPeers := ptp.NetworkPeers ++
          [{ zeroPeer with
             CleanAddr := addr, PeerAddr := some addr, PeerLocalIP := ip,
             PeerHW := mac, Unknown := false, Handshaked := true }] } := by
    unfold AddPeer
    rw [hany, hmap]
    simp
  refine ⟨heq, ?_⟩
  rintro ⟨q, hq, hqh, hqm⟩
  refine ⟨q, ?_, { zeroPeer with
      CleanAddr := addr, PeerAddr := some addr, PeerLocalIP := ip,
      PeerHW := mac, Unknown := false, Handshaked := true }, ?_, ?_, hqh, rfl, hqm⟩
  · rw [heq]; exact List.mem_append_left _ hq
  · rw [heq]; exact List.mem_append_right _ (List.mem_singleton.mpr rfl)
  · intro hcontra
    exact (habs q hq) (by rw [hcontra])

/-- C3 witness: the amended theorem applied to a concrete one-peer table
and a fresh endpoint carrying the already-present MAC. -/
theorem addPeer_no_mac_check_C3_witness :
    (AddPeer
      { IP := "i", Mac := "m",
        NetworkPeers := [{ zeroPeer with
          CleanAddr := "a:1", Unknown := false, Handshaked := true,
          PeerHW := [6, 1, 2, 3, 4, 5], PeerAddr := some "a:1" }] }
      "b:1" [10, 0, 0, 2] [6, 1, 2, 3, 4, 5]) =
      { IP := "i", Mac := "m",
        NetworkPeers := [{ zeroPeer with
            CleanAddr := "a:1", Unknown := false, Handshaked := true,
            PeerHW := [6, 1, 2, 3, 4, 5], PeerAddr := some "a:1" }] ++
          [{ zeroPeer with
             CleanAddr := "b:1", PeerAddr := some "b:1",
             PeerLocalIP := [10, 0, 0, 2], PeerHW := [6, 1, 2, 3, 4, 5],
             Unknown := false, Handshaked := true }] } := by
  exact (addPeer_no_mac_check_C3
    { IP := "i", Mac := "m",
      NetworkPeers := [{ zeroPeer with
        CleanAddr := "a:1", Unknown := false, Handshaked := true,
        PeerHW := [6, 1, 2, 3, 4, 5], PeerAddr := some "a:1" }] }
    "b:1" [10, 0, 0, 2] [6, 1, 2, 3, 4, 5] (by decide)).1

/-! ### C7 -/

/-- C7: on a peer table satisfying the reachable-state invariants
(endpoints pairwise distinct, and each `Unknown` flag the negation of
`Handshaked`), `IsPeerUnknown a` is `true` exactly when no peer with
endpoint `a` exists or the peer with endpoint `a` has not handshaked,
and `false` exactly when a handshaked peer with endpoint `a` exists. -/
theorem isPeerUnknown_iff_C7 (ptp : PTPCloud) (a : UDPAddr)
    (hinv : FlagInv ptp.NetworkPeers)
    (hnodup : (ptp.NetworkPeers.map NetworkPeer.CleanAddr).Nodup) :
    (IsPeerUnknown ptp a = true ↔
      ∀ p ∈ ptp.NetworkPeers, p.CleanAddr = a → p.Handshaked = false) ∧
    (IsPeerUnknown ptp a = false ↔
      ∃ p ∈ ptp.NetworkPeers, p.CleanAddr = a ∧ p.Handshaked = true) := by
  unfold IsPeerUnknown
  cases hf : ptp.NetworkPeers.find? (fun p => p.CleanAddr == a) with
  | none =>
    rw [List.find?_eq_none] at hf
    constructor
    · simp only [true_iff]
      intro p hp hpa
      exact absurd (by simpa using hpa) (hf p hp)
    · constructor
      · intro h; exact absurd h (by simp)
      · rintro ⟨p, hp, hpa, _⟩
        exact absurd (by simpa using hpa) (hf p hp)
  | some q =>
    have hqmem : q ∈ ptp.NetworkPeers := List.mem_of_find?_eq_some hf
    have hqa : q.CleanAddr = a := by
      have := List.find?_some hf
      simpa using this
    have huniq : ∀ p ∈ ptp.NetworkPeers, p.CleanAddr = a → p = q := by
      intro p hp hpa
      exact List.inj_on_of_nodup_map hnodup hp hqmem (by rw [hpa, hqa])
    have hqflag := hinv q hqmem
    cases hh : q.Handshaked with
    | true =>
      dsimp only
      rw [hqflag, hh]
      constructor
      · constructor
        · intro h; exact absurd h (by simp)
        · intro hall
          exact absurd (hall q hqmem hqa) (by simp [hh])
      · exact ⟨fun _ => ⟨q, hqmem, hqa, hh⟩, fun _ => rfl⟩
    | false =>
      dsimp only
      rw [hqflag, hh]
      constructor
      · simp only [Bool.not_false, true_iff]
        intro p hp hpa
        rw [huniq p hp hpa]
        exact hh
      · constructor
        · intro h; exact absurd h (by simp)
        · rintro ⟨p, hp, hpa, hph⟩
          rw [huniq p hp hpa] at hph
          exact absurd hph (by simp [hh])

/-- C7 witness: the theorem applied to a concrete two-peer table (one
discovered, one handshaked) at both kinds of address, plus an absent
address. -/
theorem isPeerUnknown_iff_C7_witness :
    (IsPeerUnknown
      { IP := "i", Mac := "m",
        NetworkPeers := [{ zeroPeer with CleanAddr := "a:1", Unknown := true },
          { zeroPeer with
            CleanAddr := "b:1", Unknown := false, Handshaked := true,
            PeerHW := [6, 1, 2, 3, 4, 5], PeerAddr := some "b:1" }] }
      "b:1" = false ↔
      ∃ p ∈ [{ zeroPeer with CleanAddr := "a:1", Unknown := true },
          { zeroPeer with
            CleanAddr := "b:1", Unknown := false, Handshaked := true,
            PeerHW := [6, 1, 2, 3, 4, 5], PeerAddr := some "b:1" }],
        p.CleanAddr = "b:1" ∧ p.Handshaked = true) := by
  exact (isPeerUnknown_iff_C7
    { IP := "i", Mac := "m",
      NetworkPeers := [{ zeroPeer with CleanAddr := "a:1", Unknown := true },
        { zeroPeer with
          CleanAddr := "b:1", Unknown := false, Handshaked := true,
          PeerHW := [6, 1, 2, 3, 4, 5], PeerAddr := some "b:1" }] }
    "b:1" (by unfold FlagInv; decide) (by decide)).2

/-! ### C9 -/

theorem hexDigit_spec : ∀ n, n < 16 →
    isHexChar (hexDigit n) = true ∧ hexVal (hexDigit n) = n ∧ hexDigit n ≠ ':' := by
  decide

theorem byteHex_no_colon (b : Nat) (h : b < 256) : ∀ c ∈ byteHex b, c ≠ ':' := by
  intro c hc
  have hd : b / 16 < 16 := by omega
  have hm : b % 16 < 16 := by omega
  rcases List.mem_pair.mp hc with rfl | rfl
  · exact (hexDigit_spec (b / 16) hd).2.2
  · exact (hexDigit_spec (b % 16) hm).2.2

theorem parseHexByte_byteHex (b : Nat) (h : b < 256) :
    parseHexByte (byteHex b) = some b := by
  have hd : b / 16 < 16 := by omega
  have hm : b % 16 < 16 := by omega
  have s1 := hexDigit_spec (b / 16) hd
  have s2 := hexDigit_spec (b % 16) hm
  unfold byteHex parseHexByte
  dsimp only
  rw [if_pos (by rw [s1.1, s2.1]; rfl)]
  rw [s1.2.1, s2.2.1]
  exact congrArg some (by omega)

theorem splitChar_no_sep (sep : Char) (a : List Char) (h : ∀ c ∈ a, c ≠ sep) :
    splitChar sep a = [a] := by
  induction a with
  | nil => rfl
  | cons c rest ih =>
    rw [splitChar, if_neg (h c (List.mem_cons_self c rest)),
      ih (fun x hx => h x (List.mem_cons_of_mem c hx))]

theorem splitChar_append (sep : Char) (a b : List Char) (h : ∀ c ∈ a, c ≠ sep) :
    splitChar sep (a ++ sep :: b) = a :: splitChar sep b := by
  induction a with
  | nil =>
    rw [List.nil_append, splitChar, if_pos rfl]
  | cons c rest ih =>
    rw [List.cons_append, splitChar, if_neg (h c (List.mem_cons_self c rest)),
      ih (fun x hx => h x (List.mem_cons_of_mem c hx))]

theorem splitChar_macString (b1 b2 b3 b4 b5 : Nat)
    (h1 : b1 < 256) (h2 : b2 < 256) (h3 : b3 < 256) (h4 : b4 < 256)
    (h5 : b5 < 256) :
    splitChar ':' (macString b1 b2 b3 b4 b5) =
      [['0', '6'], byteHex b1, byteHex b2, byteHex b3, byteHex b4, byteHex b5] := by
  have e : macString b1 b2 b3 b4 b5 =
      ['0', '6'] ++ ':' :: (byteHex b1 ++ ':' :: (byteHex b2 ++ ':' ::
        (byteHex b3 ++ ':' :: (byteHex b4 ++ ':' :: byteHex b5)))) := by
    simp [macString]
  rw [e, splitChar_append ':' ['0', '6'] _ (by decide),
    splitChar_append ':' (byteHex b1) _ (byteHex_no_colon b1 h1),
    splitChar_append ':' (byteHex b2) _ (byteHex_no_colon b2 h2),
    splitChar_append ':' (byteHex b3) _ (byteHex_no_colon b3 h3),
    splitChar_append ':' (byteHex b4) _ (byteHex_no_colon b4 h4),
    splitChar_no_sep ':' (byteHex b5) (byteHex_no_colon b5 h5)]

/-- C9: with the six random bytes passed in, `GenerateMAC` (a) leaves the
locally-administered bit set in byte 0 of the underlying buffer
(`buf[0] |= 2`); (b) produces a string that does not depend on byte 0 at
all; (c) prints the literal first octet `06`; and (d) produces a string
that `net.ParseMAC` accepts, parsing back to `0x06` followed by bytes
1–5. -/
theorem generateMAC_C9 (b0 b1 b2 b3 b4 b5 : Nat)
    (h1 : b1 < 256) (h2 : b2 < 256) (h3 : b3 < 256) (h4 : b4 < 256)
    (h5 : b5 < 256) :
    ((generateMACBuf b0 b1 b2 b3 b4 b5).headD 0).testBit 1 = true ∧
    (∀ b0', GenerateMAC b0' b1 b2 b3 b4 b5 = GenerateMAC b0 b1 b2 b3 b4 b5) ∧
    (GenerateMAC b0 b1 b2 b3 b4 b5).1.data.take 3 = ['0', '6', ':'] ∧
    (GenerateMAC b0 b1 b2 b3 b4 b5).2 = [6, b1, b2, b3, b4, b5] := by
  refine ⟨?_, fun b0' => rfl, rfl, ?_⟩
  · show (b0 ||| 2).testBit 1 = true
    rw [Nat.testBit_lor]
    have h2bit : Nat.testBit 2 1 = true := by decide
    simp [h2bit]
  · show parseMAC (String.mk (macString b1 b2 b3 b4 b5)) = [6, b1, b2, b3, b4, b5]
    unfold parseMAC
    rw [show (String.mk (macString b1 b2 b3 b4 b5)).data =
          macString b1 b2 b3 b4 b5 from rfl,
      splitChar_macString b1 b2 b3 b4 b5 h1 h2 h3 h4 h5,
      List.map_cons, List.map_cons, List.map_cons, List.map_cons,
      List.map_cons, List.map_cons, List.map_nil,
      show parseHexByte ['0', '6'] = some 6 from by decide,
      parseHexByte_byteHex b1 h1, parseHexByte_byteHex b2 h2,
      parseHexByte_byteHex b3 h3, parseHexByte_byteHex b4 h4,
      parseHexByte_byteHex b5 h5]

/-- C9 witness: the theorem at concrete bytes `(0, 17, 171, 205, 239, 1)`. -/
theorem generateMAC_C9_witness :
    ((generateMACBuf 0 17 171 205 239 1).headD 0).testBit 1 = true ∧
    (GenerateMAC 0 17 171 205 239 1).1.data.take 3 = ['0', '6', ':'] ∧
    (GenerateMAC 0 17 171 205 239 1).2 = [6, 17, 171, 205, 239, 1] := by
  have h := generateMAC_C9 0 17 171 205 239 1 (by decide) (by decide)
    (by decide) (by decide) (by decide)
  exact ⟨h.1, h.2.2.1, h.2.2.2⟩

/-! ### C8 -/

theorem syncPeersList_spec (catched : List String) : ∀ peers : List NetworkPeer,
    ∃ newPart : List NetworkPeer,
      syncPeersList peers catched = (peers ++ newPart, newPart.length) ∧
      (newPart.map NetworkPeer.CleanAddr).Nodup ∧
      (∀ q ∈ newPart, ∃ a, a ∈ catched ∧ q = newDiscoveredPeer a ∧
        ∀ p ∈ peers, p.CleanAddr ≠ a) ∧
      (∀ a ∈ catched,
        ((peers ++ newPart).any (fun p => p.CleanAddr == a)) = true) := by
  induction catched with
  | nil =>
    intro peers
    exact ⟨[], by simp [syncPeersList], by simp, by simp, by simp⟩
  | cons addr rest ih =>
    intro peers
    by_cases hfound : (peers.any (fun p => p.CleanAddr == addr)) = true
    · obtain ⟨newPart, heq, hnd, hstruct, hcov⟩ := ih peers
      refine ⟨newPart, ?_, hnd, ?_, ?_⟩
      · rw [syncPeersList, if_pos hfound, heq]
      · intro q hq
        obtain ⟨a, ha, hqa, hnp⟩ := hstruct q hq
        exact ⟨a, List.mem_cons_of_mem addr ha, hqa, hnp⟩
      · intro a ha
        rcases List.mem_cons.mp ha with rfl | ha'
        · obtain ⟨p, hp, hpa⟩ := List.any_eq_true.mp hfound
          exact List.any_eq_true.mpr ⟨p, List.mem_append_left _ hp, hpa⟩
        · exact hcov a ha'
    · have hfalse : (peers.any (fun p => p.CleanAddr == addr)) = false := by
        simpa using hfound
      have hnone : ∀ p ∈ peers, p.CleanAddr ≠ addr := by
        intro p hp
        simpa using List.any_eq_false.mp hfalse p hp
      obtain ⟨newPart', heq', hnd', hstruct', hcov'⟩ :=
        ih (peers ++ [newDiscoveredPeer addr])
      refine ⟨newDiscoveredPeer addr :: newPart', ?_, ?_, ?_, ?_⟩
      · rw [syncPeersList, if_neg (by simp [hfound]), heq']
        simp [List.append_assoc]
      · rw [List.map_cons, List.nodup_cons]
        refine ⟨?_, hnd'⟩
        intro hmem
        obtain ⟨q, hq, hqa⟩ := List.mem_map.mp hmem
        obtain ⟨a', _, hqs, hnp'⟩ := hstruct' q hq
        have : q.CleanAddr = a' := by rw [hqs]; rfl
        exact hnp' (newDiscoveredPeer addr)
          (List.mem_append_right _ (List.mem_singleton.mpr rfl))
          (by simpa [newDiscoveredPeer, zeroPeer] using (this ▸ hqa).symm)
      · intro q hq
        rcases List.mem_cons.mp hq with rfl | hq'
        · exact ⟨addr, List.mem_cons_self addr rest, rfl, hnone⟩
        · obtain ⟨a', ha', hqs, hnp'⟩ := hstruct' q hq'
          refine ⟨a', List.mem_cons_of_mem addr ha', hqs, ?_⟩
          intro p hp
          exact hnp' p (List.mem_append_left _ hp)
      · intro a ha
        rcases List.mem_cons.mp ha with rfl | ha'
        · refine List.any_eq_true.mpr
            ⟨newDiscoveredPeer a, ?_, by simp [newDiscoveredPeer]⟩
          exact List.mem_append_right _ (List.mem_cons_self _ _)
        · have := hcov' a ha'
          rwa [List.append_assoc, List.singleton_append] at this

theorem syncPeersList_noop (catched : List String) : ∀ peers : List NetworkPeer,
    (∀ a ∈ catched, (peers.any (fun p => p.CleanAddr == a)) = true) →
    syncPeersList peers catched = (peers, 0) := by
  induction catched with
  | nil => intro peers _; rfl
  | cons addr rest ih =>
    intro peers h
    rw [syncPeersList, if_pos (h addr (List.mem_cons_self addr rest))]
    exact ih peers (fun a ha => h a (List.mem_cons_of_mem addr ha))

theorem SyncPeers_eq (ptp : PTPCloud) (catched : List String) :
    SyncPeers ptp catched =
      ({ ptp with NetworkPeers := (syncPeersList ptp.NetworkPeers catched).1 },
        (syncPeersList ptp.NetworkPeers catched).2) := by
  unfold SyncPeers
  rcases h : syncPeersList ptp.NetworkPeers catched with ⟨ps, c⟩
  rfl

/-- C8: `SyncPeers` appends exactly one fresh `Unknown` (discovered)
peer for each distinct snapshot endpoint not already in the table,
returns the number appended, and is idempotent: an immediately repeated
call with the same snapshot returns 0 and leaves the table unchanged. -/
theorem syncPeers_idempotent_C8 (ptp : PTPCloud) (catched : List String) :
    (∃ newPart : List NetworkPeer,
      (SyncPeers ptp catched).1.NetworkPeers = ptp.NetworkPeers ++ newPart ∧
      (SyncPeers ptp catched).2 = newPart.length ∧
      (newPart.map NetworkPeer.CleanAddr).Nodup ∧
      (∀ q ∈ newPart, q.Unknown = true ∧ q.Handshaked = false ∧
        q.CleanAddr ∈ catched ∧
        ∀ p ∈ ptp.NetworkPeers, p.CleanAddr ≠ q.CleanAddr) ∧
      (∀ a ∈ catched, ∃ p ∈ ptp.NetworkPeers ++ newPart, p.CleanAddr = a)) ∧
    SyncPeers (SyncPeers ptp catched).1 catched = ((SyncPeers ptp catched).1, 0) := by
  obtain ⟨newPart, heq, hnd, hstruct, hcov⟩ := syncPeersList_spec catched ptp.NetworkPeers
  have hfst : (SyncPeers ptp catched).1.NetworkPeers = ptp.NetworkPeers ++ newPart := by
    rw [SyncPeers_eq, heq]
  have hsnd : (SyncPeers ptp catched).2 = newPart.length := by
    rw [SyncPeers_eq, heq]
  constructor
  · refine ⟨newPart, hfst, hsnd, hnd, ?_, ?_⟩
    · intro q hq
      obtain ⟨a, ha, hqs, hnp⟩ := hstruct q hq
      have hqa : q.CleanAddr = a := by rw [hqs]; rfl
      refine ⟨by rw [hqs]; rfl, by rw [hqs]; rfl, hqa ▸ ha, ?_⟩
      intro p hp
      rw [hqa]
      exact hnp p hp
    · intro a ha
      obtain ⟨p, hp, hpa⟩ := List.any_eq_true.mp (hcov a ha)
      exact ⟨p, hp, by simpa using hpa⟩
  · have hnoop := syncPeersList_noop catched (ptp.NetworkPeers ++ newPart) hcov
    rw [SyncPeers_eq ((SyncPeers ptp catched).1) catched, hfst, hnoop, ← hfst]

/-- C8 witness: the idempotence equation of the theorem at a concrete
table and snapshot. -/
theorem syncPeers_idempotent_C8_witness :
    SyncPeers
      (SyncPeers
        { IP := "i", Mac := "m",
          NetworkPeers := [{ zeroPeer with CleanAddr := "a:1", Unknown := true }] }
        ["a:1", "c:1", "c:1"]).1
      ["a:1", "c:1", "c:1"] =
    ((SyncPeers
        { IP := "i", Mac := "m",
          NetworkPeers := [{ zeroPeer with CleanAddr := "a:1", Unknown := true }] }
        ["a:1", "c:1", "c:1"]).1, 0) :=
  (syncPeers_idempotent_C8
    { IP := "i", Mac := "m",
      NetworkPeers := [{ zeroPeer with CleanAddr := "a:1", Unknown := true }] }
    ["a:1", "c:1", "c:1"]).2

/-! ### C10 -/

theorem IntroducePeers_eq (resolve : String → Option UDPAddr) (ptp : PTPCloud) :
    IntroducePeers resolve ptp =
      ({ ptp with NetworkPeers :=
          (ptp.NetworkPeers.foldl (introStep resolve ptp.IP ptp.Mac) ([], [])).1 },
        (ptp.NetworkPeers.foldl (introStep resolve ptp.IP ptp.Mac) ([], [])).2) := by
  unfold IntroducePeers
  rcases h : ptp.NetworkPeers.foldl (introStep resolve ptp.IP ptp.Mac) ([], [])
    with ⟨ps, s⟩
  rfl

theorem introStep_fst (resolve : String → Option UDPAddr) (ip mac : String)
    (acc : List NetworkPeer × List (P2PMessage × UDPAddr)) (peer : NetworkPeer) :
    ∃ y, (introStep resolve ip mac acc peer).1 = acc.1 ++ [y] ∧
      y.Unknown = peer.Unknown ∧ y.Handshaked = peer.Handshaked ∧
      y.CleanAddr = peer.CleanAddr := by
  unfold introStep
  cases hu : peer.Unknown with
  | false => exact ⟨peer, by simp, hu, rfl, rfl⟩
  | true =>
    cases hr : resolve peer.CleanAddr with
    | none => exact ⟨peer, by simp [hu, hr], hu, rfl, rfl⟩
    | some addr =>
      exact ⟨{ peer with PeerAddr := some addr }, by simp [hu, hr], hu, rfl, rfl⟩

theorem foldl_introStep_mem (resolve : String → Option UDPAddr) (ip mac : String) :
    ∀ (l : List NetworkPeer) (acc : List NetworkPeer × List (P2PMessage × UDPAddr))
      (x : NetworkPeer),
      x ∈ (l.foldl (introStep resolve ip mac) acc).1 →
      x ∈ acc.1 ∨ ∃ p ∈ l, x.Unknown = p.Unknown ∧ x.Handshaked = p.Handshaked := by
  intro l
  induction l with
  | nil => intro acc x hx; exact Or.inl hx
  | cons peer t ih =>
    intro acc x hx
    rw [List.foldl_cons] at hx
    rcases ih (introStep resolve ip mac acc peer) x hx with hacc | ⟨p, hp, he⟩
    · obtain ⟨y, hy, hyu, hyh, _⟩ := introStep_fst resolve ip mac acc peer
      rw [hy] at hacc
      rcases List.mem_append.mp hacc with h | h
      · exact Or.inl h
      · rcases List.mem_singleton.mp h with rfl
        exact Or.inr ⟨peer, List.mem_cons_self peer t, hyu, hyh⟩
    · exact Or.inr ⟨p, List.mem_cons_of_mem peer hp, he⟩

theorem foldl_delete_subset :
    ∀ (idxs : List Nat) (ps : List NetworkPeer) (x : NetworkPeer),
      x ∈ idxs.foldl (fun l i => l.take i ++ l.drop (i + 1)) ps → x ∈ ps := by
  intro idxs
  induction idxs with
  | nil => intro ps x hx; exact hx
  | cons i t ih =>
    intro ps x hx
    rw [List.foldl_cons] at hx
    rcases List.mem_append.mp (ih (ps.take i ++ ps.drop (i + 1)) x hx) with h | h
    · exact (List.take_sublist i ps).subset h
    · exact (List.drop_sublist (i + 1) ps).subset h

/-- C10: every peer-table operation — `SyncPeers` insertion, `AddPeer`,
`IntroducePeers`, and `PurgePeers` — preserves the invariant that the
`Unknown` flag is the negation of the `Handshaked` flag on every peer in
the table; the two-flag representation never reaches both-true or
both-false. -/
theorem flagInv_preserved_C10 (ptp : PTPCloud) (catched : List String)
    (resolve : String → Option UDPAddr) (addr : UDPAddr) (ip : IPAddr)
    (mac : HWAddr) (hinv : FlagInv ptp.NetworkPeers) :
    FlagInv (SyncPeers ptp catched).1.NetworkPeers ∧
    FlagInv (AddPeer ptp addr ip mac).NetworkPeers ∧
    FlagInv (IntroducePeers resolve ptp).1.NetworkPeers ∧
    FlagInv (PurgePeers ptp catched).NetworkPeers := by
  refine ⟨?_, ?_, ?_, ?_⟩
  · obtain ⟨newPart, heq, _, hstruct, _⟩ :=
      syncPeersList_spec catched ptp.NetworkPeers
    have hfst : (SyncPeers ptp catched).1.NetworkPeers =
        ptp.NetworkPeers ++ newPart := by
      rw [SyncPeers_eq, heq]
    rw [hfst]
    intro x hx
    rcases List.mem_append.mp hx with h | h
    · exact hinv x h
    · obtain ⟨a, _, hxs, _⟩ := hstruct x h
      rw [hxs]
      rfl
  · unfold AddPeer
    by_cases hfound : (ptp.NetworkPeers.any (fun p => p.CleanAddr == addr)) = true
    · rw [if_pos hfound]
      intro x hx
      obtain ⟨p, hp, hpx⟩ := List.mem_map.mp hx
      by_cases hm : (p.CleanAddr == addr) = true
      · rw [if_pos hm] at hpx
        rw [← hpx]
        rfl
      · rw [if_neg hm] at hpx
        rw [← hpx]
        exact hinv p hp
    · rw [if_neg hfound]
      intro x hx
      rcases List.mem_append.mp hx with h | h
      · obtain ⟨p, hp, hpx⟩ := List.mem_map.mp h
        by_cases hm : (p.CleanAddr == addr) = true
        · rw [if_pos hm] at hpx
          rw [← hpx]
          rfl
        · rw [if_neg hm] at hpx
          rw [← hpx]
          exact hinv p hp
      · rcases List.mem_singleton.mp h with rfl
        rfl
  · rw [IntroducePeers_eq]
    intro x hx
    rcases foldl_introStep_mem resolve ptp.IP ptp.Mac ptp.NetworkPeers ([], []) x hx
      with h | ⟨p, hp, hxu, hxh⟩
    · exact absurd h (List.not_mem_nil x)
    · rw [hxu, hxh]
      exact hinv p hp
  · unfold PurgePeers
    intro x hx
    exact hinv x (foldl_delete_subset _ _ x hx)

/-- C10 witness: the invariant-preservation theorem applied to a
concrete mixed table. -/
theorem flagInv_preserved_C10_witness :
    FlagInv (SyncPeers
      { IP := "i", Mac := "m",
        NetworkPeers := [{ zeroPeer with CleanAddr := "a:1", Unknown := true },
          { zeroPeer with
            CleanAddr := "b:1", Unknown := false, Handshaked := true,
            PeerHW := [6, 1, 2, 3, 4, 5], PeerAddr := some "b:1" }] }
      ["a:1", "c:1"]).1.NetworkPeers := by
  have h := flagInv_preserved_C10
    { IP := "i", Mac := "m",
      NetworkPeers := [{ zeroPeer with CleanAddr := "a:1", Unknown := true },
        { zeroPeer with
          CleanAddr := "b:1", Unknown := false, Handshaked := true,
          PeerHW := [6, 1, 2, 3, 4, 5], PeerAddr := some "b:1" }] }
    ["a:1", "c:1"] (fun s => some s) "x:1" [10, 0, 0, 9] [6, 9, 9, 9, 9, 9]
    (by unfold FlagInv; decide)
  exact h.1

/-! ### C4 -/

theorem MembershipCycle_eq (resolve : String → Option UDPAddr) (ptp : PTPCloud)
    (lastCatch : List String) :
    MembershipCycle resolve ptp lastCatch =
      if (SyncPeers (PurgePeers ptp lastCatch) lastCatch).2 > 0 then
        IntroducePeers resolve (SyncPeers (PurgePeers ptp lastCatch) lastCatch).1
      else ((SyncPeers (PurgePeers ptp lastCatch) lastCatch).1, []) := by
  unfold MembershipCycle
  dsimp only

theorem foldl_introStep_allnone (resolve : String → Option UDPAddr)
    (ip mac : String) (hres : ∀ s, resolve s = none) :
    ∀ (l : List NetworkPeer) (acc : List NetworkPeer × List (P2PMessage × UDPAddr)),
      l.foldl (introStep resolve ip mac) acc = (acc.1 ++ l, acc.2) := by
  intro l
  induction l with
  | nil => intro acc; simp
  | cons peer t ih =>
    intro acc
    rw [List.foldl_cons]
    have hstep : introStep resolve ip mac acc peer = (acc.1 ++ [peer], acc.2) := by
      unfold introStep
      cases hu : peer.Unknown with
      | false => simp
      | true => simp [hres peer.CleanAddr]
    rw [hstep, ih]
    simp

theorem foldl_introStep_snd_mono (resolve : String → Option UDPAddr)
    (ip mac : String) :
    ∀ (l : List NetworkPeer) (acc : List NetworkPeer × List (P2PMessage × UDPAddr))
      (x : P2PMessage × UDPAddr),
      x ∈ acc.2 → x ∈ (l.foldl (introStep resolve ip mac) acc).2 := by
  intro l
  induction l with
  | nil => intro acc x hx; exact hx
  | cons peer t ih =>
    intro acc x hx
    rw [List.foldl_cons]
    apply ih
    unfold introStep
    cases hu : peer.Unknown with
    | false => simpa using hx
    | true =>
      cases hr : resolve peer.CleanAddr with
      | none => simpa [hr] using hx
      | some addr =>
        simp only [hr, Bool.not_true, Bool.false_eq_true, if_false]
        exact List.mem_append_left _ hx

theorem foldl_introStep_sends (resolve : String → Option UDPAddr)
    (ip mac : String) :
    ∀ (l : List NetworkPeer) (acc : List NetworkPeer × List (P2PMessage × UDPAddr))
      (p : NetworkPeer), p ∈ l → p.Unknown = true →
      ∀ a, resolve p.CleanAddr = some a →
        (PrepareIntroductionMessage ip mac, a) ∈
          (l.foldl (introStep resolve ip mac) acc).2 := by
  intro l
  induction l with
  | nil => intro acc p hp; exact absurd hp (List.not_mem_nil p)
  | cons q t ih =>
    intro acc p hp hu a ha
    rw [List.foldl_cons]
    rcases List.mem_cons.mp hp with rfl | hp'
    · apply foldl_introStep_snd_mono
      unfold introStep
      simp only [hu, ha, Bool.not_true, Bool.false_eq_true, if_false]
      exact List.mem_append_right _ (List.mem_singleton.mpr rfl)
    · exact ih (introStep resolve ip mac acc q) p hp' hu a ha

/-- C4 counterexample: the claim asserts that the next Membership Loop
cycle re-attempts resolution and introduction for a still-unresolved
peer even when no new peers are inserted.  On a table with one
`Unknown` peer `"a:1"` (no `PeerAddr`), an unchanged snapshot and a
resolver that now succeeds, the cycle sends nothing and leaves the peer
untouched: `IntroducePeers` is gated on `newPeersNum > 0` and
`SyncPeers` inserted nothing. -/
theorem membershipCycle_no_retry_cex_C4 :
    MembershipCycle (fun s => some s)
      { IP := "10.0.0.1", Mac := "06:aa:aa:aa:aa:aa",
        NetworkPeers := [{ zeroPeer with CleanAddr := "a:1", Unknown := true }] }
      ["a:1"] =
    ({ IP := "10.0.0.1", Mac := "06:aa:aa:aa:aa:aa",
       NetworkPeers := [{ zeroPeer with CleanAddr := "a:1", Unknown := true }] },
      []) := by
  decide

/-- C4 (amended): a failed resolution leaves the peer untouched in the
non-handshaked state (with an everywhere-failing resolver the
introduction pass changes nothing and sends nothing); but a later cycle
re-attempts resolution and introduction only when that cycle inserts at
least one new peer — a cycle whose `SyncPeers` count is 0 performs no
introduction pass at all, while a cycle with a positive count runs
`IntroducePeers`, which attempts every `Unknown` peer (resolvable ones
get one introduction each, the stale failed one included). -/
theorem membershipCycle_gated_retry_C4 (resolve : String → Option UDPAddr)
    (ptp : PTPCloud) (catched : List String) :
    ((∀ s, resolve s = none) → IntroducePeers resolve ptp = (ptp, [])) ∧
    ((SyncPeers (PurgePeers ptp catched) catched).2 = 0 →
      MembershipCycle resolve ptp catched =
        ((SyncPeers (PurgePeers ptp catched) catched).1, [])) ∧
    (0 < (SyncPeers (PurgePeers ptp catched) catched).2 →
      MembershipCycle resolve ptp catched =
        IntroducePeers resolve (SyncPeers (PurgePeers ptp catched) catched).1) ∧
    (∀ p ∈ ptp.NetworkPeers, p.Unknown = true →
      ∀ a, resolve p.CleanAddr = some a →
        (PrepareIntroductionMessage ptp.IP ptp.Mac, a) ∈
          (IntroducePeers resolve ptp).2) := by
  refine ⟨?_, ?_, ?_, ?_⟩
  · intro hres
    rw [IntroducePeers_eq,
      foldl_introStep_allnone resolve ptp.IP ptp.Mac hres ptp.NetworkPeers ([], [])]
    rfl
  · intro h0
    rw [MembershipCycle_eq, if_neg (by omega)]
  · intro hpos
    rw [MembershipCycle_eq, if_pos hpos]
  · intro p hp hu a ha
    rw [IntroducePeers_eq]
    exact foldl_introStep_sends resolve ptp.IP ptp.Mac ptp.NetworkPeers ([], [])
      p hp hu a ha

/-- C4 witness: the amended theorem at a concrete table and snapshot —
the no-new-peers cycle performs no introduction pass, and the
failed-resolver pass leaves the table untouched. -/
theorem membershipCycle_gated_retry_C4_witness :
    IntroducePeers (fun _ => none)
      { IP := "i", Mac := "m",
        NetworkPeers := [{ zeroPeer with CleanAddr := "a:1", Unknown := true }] } =
      ({ IP := "i", Mac := "m",
         NetworkPeers := [{ zeroPeer with CleanAddr := "a:1", Unknown := true }] },
        []) ∧
    MembershipCycle (fun _ => none)
      { IP := "i", Mac := "m",
        NetworkPeers := [{ zeroPeer with CleanAddr := "a:1", Unknown := true }] }
      ["a:1"] =
      ((SyncPeers (PurgePeers
          { IP := "i", Mac := "m",
            NetworkPeers := [{ zeroPeer with CleanAddr := "a:1", Unknown := true }] }
          ["a:1"]) ["a:1"]).1, []) := by
  have h := membershipCycle_gated_retry_C4 (fun _ => none)
    { IP := "i", Mac := "m",
      NetworkPeers := [{ zeroPeer with CleanAddr := "a:1", Unknown := true }] }
    ["a:1"]
  exact ⟨h.1 (fun s => rfl), h.2.1 (by decide)⟩

end P2P
